import Mathlib

/-!
Verification of the SynergySphere client (src/src/App.js) against its
specification. The source is a single React client; every pure decision it
makes (which request bodies are built, which options a selector offers, how
local lists are updated, how the auth state evolves) is embedded below as
executable Lean definitions. The backend is not part of the source tree;
where a claim also depends on backend behaviour, the backend operation is
modelled from the spec and marked as such in its doc comment.
-/

namespace SynergySphere

/-- Member entry of a project, as delivered in `project.member_details`. -/
structure MemberDetail where
  id : String
  name : String
  email : String
deriving DecidableEq, Repr

/-- Project record as the client sees it. -/
structure Project where
  id : String
  name : String
  description : Option String
  deadline : Option String
  member_details : List MemberDetail
  created_by : String
deriving DecidableEq, Repr

/-- Task record as the client sees it. -/
structure Task where
  id : String
  project_id : String
  title : String
  description : String
  status : String
  assignee_id : Option String
  due_date : Option String
deriving DecidableEq, Repr

/-- Comment record of the discussion feed. -/
structure Comment where
  id : String
  project_id : String
  user_id : String
  message : String
  timestamp : Nat
deriving DecidableEq, Repr

/-- Errors of the REST boundary, per the error taxonomy of the spec. -/
inductive ApiError where
  | validationError
  | invalidAssignee
  | unauthenticated
  | forbidden
  | notFound
deriving DecidableEq, Repr

/-- Backend state: the three persisted collections a project cascades over. -/
structure ServerState where
  projects : List Project
  tasks : List Task
  comments : List Comment
deriving DecidableEq, Repr

/-! ## Auth state (AuthProvider, App.js lines 36 to 111)

The client auth state consists of the `user` and `token` React states, the
token persisted in localStorage, the default axios Authorization header and
the `loading` flag. -/

/-- Client auth state held by AuthProvider. -/
structure AuthState where
  user : Option String
  token : Option String
  authHeader : Option String
  storedToken : Option String
  loading : Bool
deriving DecidableEq, Repr

/-- The `logout` callback (lines 41 to 46): removes the stored token, clears
token and user, and deletes the default Authorization header. -/
def logout (s : AuthState) : AuthState :=
  { s with storedToken := none, token := none, user := none, authHeader := none }

/-- Outcome of the `GET /auth/me` request awaited by `fetchUser`. -/
inductive FetchResult where
  | success (userData : String)
  | failure
deriving DecidableEq, Repr

/-- The `fetchUser` callback (lines 48 to 58): on success it stores the user;
on any error it calls `logout`; the finally block always ends loading. -/
def fetchUser (s : AuthState) (r : FetchResult) : AuthState :=
  match r with
  | .success userData => { s with user := some userData, loading := false }
  | .failure => { logout s with loading := false }

/-- The effect on `token` (lines 60 to 67): with a token present it sets the
default Authorization header to the Bearer form (and then runs `fetchUser`,
modelled as separate steps); with no token it only ends loading. -/
def tokenEffect (s : AuthState) : AuthState :=
  match s.token with
  | some t => { s with authHeader := some ("Bearer " ++ t) }
  | none => { s with loading := false }

/-- Outcome of the login or register request. -/
inductive LoginResult where
  | success (access_token : String) (userData : String)
  | failure
deriving DecidableEq, Repr

/-- The `login` function (lines 69 to 83): on success it persists the token,
sets token, user and the Bearer header; on failure it leaves state unchanged. -/
def login (s : AuthState) (r : LoginResult) : AuthState :=
  match r with
  | .success access_token userData =>
      { s with storedToken := some access_token, token := some access_token,
               user := some userData, authHeader := some ("Bearer " ++ access_token) }
  | .failure => s

/-- The `register` function (lines 85 to 99): identical state effect to login. -/
def register (s : AuthState) (r : LoginResult) : AuthState :=
  match r with
  | .success access_token userData =>
      { s with storedToken := some access_token, token := some access_token,
               user := some userData, authHeader := some ("Bearer " ++ access_token) }
  | .failure => s

/-- Initial auth state on mount: token read from localStorage, no user, no
header, loading true (lines 37 to 39). -/
def initialAuthState (stored : Option String) : AuthState :=
  { user := none, token := stored, authHeader := none, storedToken := stored, loading := true }

/-- Reachable auth states: the state after the mount effect has run, closed
under the state transitions the component can perform. -/
inductive AuthReachable : AuthState → Prop where
  | initialLoad (stored : Option String) :
      AuthReachable (tokenEffect (initialAuthState stored))
  | loginStep {s : AuthState} (r : LoginResult) :
      AuthReachable s → AuthReachable (login s r)
  | registerStep {s : AuthState} (r : LoginResult) :
      AuthReachable s → AuthReachable (register s r)
  | logoutClick {s : AuthState} :
      AuthReachable s → AuthReachable (logout s)
  | effectRun {s : AuthState} :
      AuthReachable s → AuthReachable (tokenEffect s)
  | fetchStep {s : AuthState} (r : FetchResult) :
      AuthReachable s → AuthReachable (fetchUser s r)

/-! ## Task creation (ProjectDetail, App.js lines 854 to 900 and 1031 to 1096) -/

/-- The `newTask` form state of ProjectDetail (lines 854 to 860). -/
structure NewTaskForm where
  title : String
  description : String
  assignee_id : String
  due_date : String
  status : String
deriving DecidableEq, Repr

/-- Initial value of the `newTask` form state (lines 854 to 860). -/
def initialNewTask : NewTaskForm :=
  { title := "", description := "", assignee_id := "", due_date := "", status := "To-Do" }

/-- The three status values offered by every status Select in the source
(lines 503 to 505, 1083 to 1085, 1151 to 1153). -/
def statusSelectItems : List String := ["To-Do", "In Progress", "Done"]

/-- Identifiers of the members of a project, as the assignee selector draws
them from `project.member_details` (lines 1059 to 1063). -/
def memberIds (p : Project) : List String :=
  p.member_details.map (fun m => m.id)

/-- Reachable states of the create-task form. The assignee Select offers only
`project.member_details` entries (lines 1059 to 1063) and the status Select
offers only the three fixed statuses (lines 1083 to 1085); the other inputs
are free text. The form starts at, and is reset to, `initialNewTask`
(lines 854 to 860 and 894). -/
inductive TaskFormReachable (p : Project) : NewTaskForm → Prop where
  | init : TaskFormReachable p initialNewTask
  | setTitle {f : NewTaskForm} (v : String) :
      TaskFormReachable p f → TaskFormReachable p { f with title := v }
  | setDescription {f : NewTaskForm} (v : String) :
      TaskFormReachable p f → TaskFormReachable p { f with description := v }
  | selectAssignee {f : NewTaskForm} (m : MemberDetail) (hm : m ∈ p.member_details) :
      TaskFormReachable p f → TaskFormReachable p { f with assignee_id := m.id }
  | setDueDate {f : NewTaskForm} (v : String) :
      TaskFormReachable p f → TaskFormReachable p { f with due_date := v }
  | selectStatus {f : NewTaskForm} (v : String) (hv : v ∈ statusSelectItems) :
      TaskFormReachable p f → TaskFormReachable p { f with status := v }
  | reset {f : NewTaskForm} :
      TaskFormReachable p f → TaskFormReachable p initialNewTask

/-- Body of the POST request creating a task. Fields that the client can send
as JSON null are Option valued; `none` stands for JSON null. -/
structure CreateTaskBody where
  title : String
  description : String
  assignee_id : Option String
  due_date : Option String
  status : String
deriving DecidableEq, Repr

/-- The body built by `handleCreateTask` (lines 886 to 900): the spread of the
form state, with `due_date` replaced by its ISO conversion when non-empty and
by null when empty. The Date-to-ISO conversion is abstracted as `iso`. -/
def handleCreateTask (iso : String → String) (f : NewTaskForm) : CreateTaskBody :=
  { title := f.title, description := f.description,
    assignee_id := some f.assignee_id,
    due_date := if f.due_date = "" then none else some (iso f.due_date),
    status := f.status }

/-- Modelled from the spec: the backend task-creation operation is not in
src (only its client caller `handleCreateTask` is). Per section 4.4, creation
fails with ValidationError on an empty title and with InvalidAssignee when
the given assignee is not in the member set of the project; the empty-string
`assignee_id` the client sends when no assignee was selected denotes an
absent assignee. -/
def serverCreateTask (p : Project) (body : CreateTaskBody) (newId : String) :
    Except ApiError Task :=
  if body.title = "" then .error .validationError
  else
    match body.assignee_id with
    | none => .ok ⟨newId, p.id, body.title, body.description, body.status, none, body.due_date⟩
    | some a =>
        if a = "" then
          .ok ⟨newId, p.id, body.title, body.description, body.status, none, body.due_date⟩
        else if a ∈ memberIds p then
          .ok ⟨newId, p.id, body.title, body.description, body.status, some a, body.due_date⟩
        else .error .invalidAssignee

/-! ## Task status updates (App.js lines 789 to 797, 902 to 910, 1146 to 1155) -/

/-- Body of the PUT request updating a task; `none` means the field is absent
from the request body. -/
structure TaskUpdateBody where
  title : Option String
  description : Option String
  assignee_id : Option String
  due_date : Option String
  status : Option String
deriving DecidableEq, Repr

/-- The body issued by `handleStatusChange` of MyTasks (lines 789 to 797):
the object literal with the single key `status`. The task id only selects
the request URL. -/
def handleStatusChange (taskId : String) (newStatus : String) : TaskUpdateBody :=
  { title := none, description := none, assignee_id := none, due_date := none,
    status := some newStatus }

/-- The body issued by `handleUpdateTaskStatus` of ProjectDetail (lines 902
to 910): the object literal with the single key `status`. -/
def handleUpdateTaskStatus (taskId : String) (newStatus : String) : TaskUpdateBody :=
  { title := none, description := none, assignee_id := none, due_date := none,
    status := some newStatus }

/-- The options the status Select of a task card offers; the rendered list is
the same three items whatever the current status of the task is (lines 503 to
505 and 1151 to 1153). -/
def taskStatusOptions (t : Task) : List String := statusSelectItems

/-- Modelled from the spec: the backend task update operation is not in src
(only its client callers are). Per section 4.4, any subset of fields may
change and only the provided fields are applied. -/
def applyTaskPatch (t : Task) (b : TaskUpdateBody) : Task :=
  { t with
    title := b.title.getD t.title,
    description := b.description.getD t.description,
    status := b.status.getD t.status,
    assignee_id := match b.assignee_id with | some a => some a | none => t.assignee_id,
    due_date := match b.due_date with | some d => some d | none => t.due_date }

/-! ## Comments (App.js lines 925 to 936, 1212 to 1222) -/

/-- Whitespace per the JavaScript trim semantics: WhiteSpace and
LineTerminator code points. -/
def isJsWhitespace (c : Char) : Bool :=
  (c.toNat = 9) || (c.toNat = 10) || (c.toNat = 11) || (c.toNat = 12) ||
  (c.toNat = 13) || (c.toNat = 32) || (c.toNat = 160) || (c.toNat = 5760) ||
  (decide (8192 ≤ c.toNat) && decide (c.toNat ≤ 8202)) ||
  (c.toNat = 8232) || (c.toNat = 8233) || (c.toNat = 8239) ||
  (c.toNat = 8287) || (c.toNat = 12288) || (c.toNat = 65279)

/-- Leading and trailing JavaScript whitespace removed from a character list. -/
def jsTrimList (l : List Char) : List Char :=
  ((l.dropWhile isJsWhitespace).reverse.dropWhile isJsWhitespace).reverse

/-- The JavaScript `String.prototype.trim`. -/
def jsTrim (s : String) : String := String.mk (jsTrimList s.data)

/-- Body of the POST request appending a comment. The client object literal
has the single key `message`; the optional timestamp field records that no
timestamp key is ever sent (`none` = absent). -/
structure CommentPostBody where
  message : String
  timestamp : Option Nat
deriving DecidableEq, Repr

/-- The `handleAddComment` handler (lines 925 to 936): when the trimmed
message is empty it returns early and issues no request (`none`); otherwise
it posts the object literal carrying only the untrimmed message. -/
def handleAddComment (newComment : String) : Option CommentPostBody :=
  if (jsTrim newComment).data = [] then none
  else some { message := newComment, timestamp := none }

/-- Modelled from the spec: the backend comment append operation is not in
src (only its client caller `handleAddComment` is). Per section 4.5, append
fails with ValidationError on an empty or whitespace-only message, and the
timestamp is assigned at append time from the server clock `now`, never taken
from the request body. -/
def serverAppendComment (p : Project) (caller : String) (body : CommentPostBody)
    (newId : String) (now : Nat) : Except ApiError Comment :=
  if (jsTrim body.message).data = [] then .error .validationError
  else .ok ⟨newId, p.id, caller, body.message, now⟩

/-! ## Project deletion (App.js lines 279 to 288, 622 to 624) -/

/-- The `handleDelete` of ProjectDashboard (lines 622 to 624): removes the
deleted project from the local list by filtering on its id. -/
def ProjectDashboard.handleDelete (projects : List Project) (projectId : String) :
    List Project :=
  projects.filter (fun p => p.id != projectId)

/-- The `handleDelete` of ProjectCard (lines 279 to 288): only when the DELETE
request succeeds does it invoke the dashboard callback that filters the list;
on failure it only shows a toast and the list is unchanged. -/
def ProjectCard.handleDelete (requestSucceeded : Bool) (projects : List Project)
    (projectId : String) : List Project :=
  if requestSucceeded then ProjectDashboard.handleDelete projects projectId
  else projects

/-- Modelled from the spec: the backend project deletion is not in src (only
its client caller is). Per section 4.3, the caller must be the owner, and the
delete cascades over the tasks and comments of the project as a single atomic
unit: the whole successor state is produced at once, or an error leaves the
state untouched. -/
def serverDeleteProject (st : ServerState) (caller : String) (projectId : String) :
    Except ApiError ServerState :=
  match st.projects.find? (fun p => p.id == projectId) with
  | none => .error .notFound
  | some p =>
      if p.created_by = caller then
        .ok { projects := st.projects.filter (fun q => q.id != projectId),
              tasks := st.tasks.filter (fun t => t.project_id != projectId),
              comments := st.comments.filter (fun c => c.project_id != projectId) }
      else .error .forbidden

/-! ## Task board (App.js lines 938 to 940, 1107 to 1119) -/

/-- The `getTasksByStatus` helper of ProjectDetail (lines 938 to 940). -/
def getTasksByStatus (tasks : List Task) (status : String) : List Task :=
  tasks.filter (fun task => task.status == status)

/-- The three board columns rendered by ProjectDetail (line 1109). -/
def boardStatuses : List String := ["To-Do", "In Progress", "Done"]

/-! ## Concrete fixtures used by the witnesses -/

/-- Fixture member. -/
def demoMember : MemberDetail := { id := "u1", name := "Alice", email := "alice@x.com" }

/-- Fixture project with one member who is also its owner. -/
def demoProject : Project :=
  { id := "p1", name := "Launch", description := none, deadline := none,
    member_details := [demoMember], created_by := "u1" }

/-- Fixture task in status Done. -/
def demoTask : Task :=
  { id := "t1", project_id := "p1", title := "Write spec", description := "",
    status := "Done", assignee_id := some "u1", due_date := none }

/-- Fixture server state holding only the fixture project and task. -/
def demoServerState : ServerState :=
  { projects := [demoProject], tasks := [demoTask], comments := [] }

/-! ## Helper lemmas -/

/-- Every element of the dropWhile suffix satisfying the predicate is the same
as every element of the list satisfying it. -/
theorem dropWhile_forall_iff (p : α → Bool) (l : List α) :
    (∀ x ∈ l.dropWhile p, p x = true) ↔ ∀ x ∈ l, p x = true := by
  constructor
  · intro h x hx
    rw [show l = l.takeWhile p ++ l.dropWhile p from (List.takeWhile_append_dropWhile p l).symm] at hx
    rcases List.mem_append.mp hx with h1 | h2
    · exact List.mem_takeWhile_imp h1
    · exact h x h2
  · intro h x hx
    exact h x ((List.dropWhile_sublist p).subset hx)

/-- The trimmed list is empty exactly when every character is whitespace. -/
theorem jsTrimList_eq_nil_iff (l : List Char) :
    jsTrimList l = [] ↔ ∀ c ∈ l, isJsWhitespace c = true := by
  unfold jsTrimList
  simp only [List.reverse_eq_nil_iff, List.dropWhile_eq_nil_iff, List.mem_reverse]
  exact dropWhile_forall_iff _ _

/-! ## Claim theorems -/

/-- C4: every status-only task update body from either task view carries
exactly the status field and nothing else, so applying it as a patch leaves
title, description and assignee unchanged. -/
theorem statusOnly_update_body_frame (taskId newStatus : String) (t : Task) :
    handleStatusChange taskId newStatus = handleUpdateTaskStatus taskId newStatus
    ∧ (handleUpdateTaskStatus taskId newStatus).title = none
    ∧ (handleUpdateTaskStatus taskId newStatus).description = none
    ∧ (handleUpdateTaskStatus taskId newStatus).assignee_id = none
    ∧ (handleUpdateTaskStatus taskId newStatus).due_date = none
    ∧ (handleUpdateTaskStatus taskId newStatus).status = some newStatus
    ∧ applyTaskPatch t (handleUpdateTaskStatus taskId newStatus) = { t with status := newStatus } :=
  ⟨rfl, rfl, rfl, rfl, rfl, rfl, rfl⟩

/-- C8: any failure while resolving the current user transitions the client
to the logged-out state (stored token, token, user and Authorization header
all cleared), and loading ends on both the success and the failure branch. -/
theorem fetchUser_failure_logs_out (s : AuthState) (userData : String) :
    fetchUser s FetchResult.failure =
      { user := none, token := none, authHeader := none, storedToken := none, loading := false }
    ∧ (fetchUser s (FetchResult.success userData)).loading = false :=
  ⟨rfl, rfl⟩

/-- C7: in every reachable auth state the default Authorization header is the
Bearer form of the token exactly when a token is present, and logout clears
the stored token, the token, the user and the Authorization header. -/
theorem authHeader_tracks_token (s : AuthState) (h : AuthReachable s) :
    s.authHeader = Option.map (fun t => "Bearer " ++ t) s.token
    ∧ (logout s).storedToken = none ∧ (logout s).token = none
    ∧ (logout s).user = none ∧ (logout s).authHeader = none := by
  refine ⟨?_, rfl, rfl, rfl, rfl⟩
  induction h with
  | initialLoad stored => cases stored <;> rfl
  | loginStep r _ ih =>
      cases r with
      | success t u => rfl
      | failure => exact ih
  | registerStep r _ ih =>
      cases r with
      | success t u => rfl
      | failure => exact ih
  | logoutClick _ _ => rfl
  | effectRun hstep ih =>
      rename_i s'
      unfold tokenEffect
      cases htok : s'.token with
      | some t => simp [htok]
      | none => simpa [htok] using ih
  | fetchStep r _ ih =>
      cases r with
      | success u => exact ih
      | failure => rfl

/-- Witness for C7 at the concrete empty-storage initial state. -/
theorem authHeader_tracks_token_witness :
    (tokenEffect (initialAuthState none)).authHeader =
      Option.map (fun t => "Bearer " ++ t) (tokenEffect (initialAuthState none)).token
    ∧ (logout (tokenEffect (initialAuthState none))).authHeader = none :=
  have H := authHeader_tracks_token _ (AuthReachable.initialLoad none)
  ⟨H.1, H.2.2.2.2⟩

/-- C6: a comment submission whose message is empty or whitespace-only issues
no append request (so the discussion state is untouched); any message with
non-whitespace content issues the append request carrying that message. -/
theorem handleAddComment_whitespace_iff (msg : String) :
    (handleAddComment msg = none ↔ ∀ c ∈ msg.data, isJsWhitespace c = true)
    ∧ (handleAddComment msg = some { message := msg, timestamp := none } ↔
       ¬ ∀ c ∈ msg.data, isJsWhitespace c = true) := by
  unfold handleAddComment
  split_ifs with hif
  · exact ⟨iff_of_true rfl ((jsTrimList_eq_nil_iff msg.data).mp hif),
      iff_of_false (by simp) (not_not_intro ((jsTrimList_eq_nil_iff msg.data).mp hif))⟩
  · exact ⟨iff_of_false (by simp) (fun hall => hif ((jsTrimList_eq_nil_iff msg.data).mpr hall)),
      iff_of_true rfl (fun hall => hif ((jsTrimList_eq_nil_iff msg.data).mpr hall))⟩

/-- Witness for C6: a whitespace-only message issues no request; a message
with content issues the request carrying it. -/
theorem handleAddComment_whitespace_iff_witness :
    handleAddComment "   " = none
    ∧ handleAddComment "hi" = some { message := "hi", timestamp := none } :=
  ⟨(handleAddComment_whitespace_iff "   ").1.mpr (by decide),
   (handleAddComment_whitespace_iff "hi").2.mpr (by decide)⟩

/-- C9: every append request the client issues carries only the message and
no timestamp; the spec-modelled backend assigns the timestamp from its own
clock at append time, whatever the request contained. -/
theorem comment_timestamp_server_assigned (msg : String) (body : CommentPostBody)
    (h : handleAddComment msg = some body) :
    body.message = msg ∧ body.timestamp = none
    ∧ ∀ (p : Project) (caller newId : String) (now : Nat),
        serverAppendComment p caller body newId now =
          Except.ok { id := newId, project_id := p.id, user_id := caller,
                      message := msg, timestamp := now } := by
  unfold handleAddComment at h
  split_ifs at h with hif
  injection h with h1
  subst h1
  refine ⟨rfl, rfl, ?_⟩
  intro p caller newId now
  unfold serverAppendComment
  rw [if_neg hif]

/-- Witness for C9 at a concrete message and server clock. -/
theorem comment_timestamp_server_assigned_witness :
    serverAppendComment demoProject "u1" { message := "Ship it", timestamp := none } "c1" 42 =
      Except.ok { id := "c1", project_id := "p1", user_id := "u1",
                  message := "Ship it", timestamp := 42 } :=
  (comment_timestamp_server_assigned "Ship it" { message := "Ship it", timestamp := none }
    (by decide)).2.2 demoProject "u1" "c1" 42

/-- C2: whatever the current status of a task, the status selector offers all
three statuses, and selecting one issues an update body carrying exactly the
selected status, which the spec-modelled update applies, so all six directed
transitions between the three statuses are legal. -/
theorem status_transitions_all_offered (t : Task) (s1 s2 : String)
    (h1 : s1 ∈ statusSelectItems) (h2 : s2 ∈ statusSelectItems)
    (hcur : t.status = s1) :
    s2 ∈ taskStatusOptions t
    ∧ handleUpdateTaskStatus t.id s2 =
        { title := none, description := none, assignee_id := none, due_date := none,
          status := some s2 }
    ∧ applyTaskPatch t (handleUpdateTaskStatus t.id s2) = { t with status := s2 } :=
  ⟨h2, rfl, rfl⟩

/-- Witness for C2: the Done to To-Do transition on the fixture task. -/
theorem status_transitions_all_offered_witness :
    "To-Do" ∈ taskStatusOptions demoTask
    ∧ applyTaskPatch demoTask (handleUpdateTaskStatus demoTask.id "To-Do") =
        { demoTask with status := "To-Do" } :=
  have H := status_transitions_all_offered demoTask "Done" "To-Do" (by decide) (by decide) rfl
  ⟨H.1, H.2.2⟩

/-- C10: getTasksByStatus returns exactly the tasks whose status equals the
given string, preserving their order (a sublist); a task bearing one of the
three board statuses appears exactly in the matching column, and a task with
any other status appears in no column. -/
theorem getTasksByStatus_filters (tasks : List Task) (s : String) (t : Task) :
    (t ∈ getTasksByStatus tasks s ↔ t ∈ tasks ∧ t.status = s)
    ∧ List.Sublist (getTasksByStatus tasks s) tasks
    ∧ (t ∈ tasks → t.status ∈ boardStatuses →
        t ∈ getTasksByStatus tasks t.status
        ∧ ∀ s' ∈ boardStatuses, t ∈ getTasksByStatus tasks s' → s' = t.status)
    ∧ (t.status ∉ boardStatuses → ∀ s' ∈ boardStatuses, t ∉ getTasksByStatus tasks s') := by
  have hmem : ∀ (s' : String), t ∈ getTasksByStatus tasks s' ↔ t ∈ tasks ∧ t.status = s' := by
    intro s'
    unfold getTasksByStatus
    simp [List.mem_filter]
  refine ⟨hmem s, List.filter_sublist _, ?_, ?_⟩
  · intro ht hs
    refine ⟨(hmem _).mpr ⟨ht, rfl⟩, ?_⟩
    intro s' hs' hmem'
    exact ((hmem s').mp hmem').2.symm
  · intro hs s' hs' hmem'
    apply hs
    rw [((hmem s').mp hmem').2]
    exact hs'

/-- Witness for C10: the fixture Done task appears in the Done column. -/
theorem getTasksByStatus_filters_witness :
    demoTask ∈ getTasksByStatus [demoTask] "Done" :=
  (getTasksByStatus_filters [demoTask] "Done" demoTask).1.mpr
    ⟨List.mem_singleton.mpr rfl, rfl⟩

/-- C3 counterexample: with all optional fields omitted the client submits
the literal form state, whose assignee_id is the empty string, not null; the
default creation request therefore does not carry a null assignee. -/
theorem default_createTask_assignee_not_null :
    (handleCreateTask (fun d => d) { initialNewTask with title := "Write spec" }).assignee_id
      = some ""
    ∧ (handleCreateTask (fun d => d) { initialNewTask with title := "Write spec" }).assignee_id
      ≠ none :=
  ⟨rfl, by decide⟩

/-- C3 (amended): with all optional fields omitted the client request carries
the given title, empty description, status To-Do, null due date and the
empty-string assignee sentinel (not null); the spec-modelled backend, which
reads the empty sentinel as no assignee, then yields a task with the given
title, status To-Do, null assignee and null due date. -/
theorem default_createTask_body_and_task (title : String) (iso : String → String)
    (p : Project) (newId : String) (h : title ≠ "") :
    handleCreateTask iso { initialNewTask with title := title } =
      { title := title, description := "", assignee_id := some "", due_date := none,
        status := "To-Do" }
    ∧ serverCreateTask p (handleCreateTask iso { initialNewTask with title := title }) newId =
        Except.ok { id := newId, project_id := p.id, title := title, description := "",
                    status := "To-Do", assignee_id := none, due_date := none } := by
  constructor
  · rfl
  · unfold serverCreateTask handleCreateTask
    simp [h, initialNewTask]

/-- Witness for C3 (amended) at a concrete title. -/
theorem default_createTask_body_and_task_witness :
    serverCreateTask demoProject
        (handleCreateTask (fun d => d) { initialNewTask with title := "Write spec" }) "t9" =
      Except.ok { id := "t9", project_id := "p1", title := "Write spec", description := "",
                  status := "To-Do", assignee_id := none, due_date := none } :=
  (default_createTask_body_and_task "Write spec" (fun d => d) demoProject "t9" (by decide)).2

/-- C1: in every reachable state of the create-task form, a selected
assignee is the identifier of a member of the project (the selector offers
only `project.member_details`), the submitted body carries exactly that
identifier, and the spec-modelled backend rejects any non-member assignee
with InvalidAssignee, so an invalid assignment never succeeds. -/
theorem createTask_assignee_is_member (p : Project) (f : NewTaskForm)
    (hr : TaskFormReachable p f) (hsel : f.assignee_id ≠ "") :
    f.assignee_id ∈ memberIds p
    ∧ (∀ iso : String → String, (handleCreateTask iso f).assignee_id = some f.assignee_id)
    ∧ (∀ (body : CreateTaskBody) (newId a : String),
        body.title ≠ "" → body.assignee_id = some a → a ≠ "" → a ∉ memberIds p →
        serverCreateTask p body newId = Except.error ApiError.invalidAssignee) := by
  refine ⟨?_, fun iso => rfl, ?_⟩
  · have key : f.assignee_id = "" ∨ f.assignee_id ∈ memberIds p := by
      clear hsel
      induction hr with
      | init => exact Or.inl rfl
      | setTitle v hstep ih => exact ih
      | setDescription v hstep ih => exact ih
      | selectAssignee m hm hstep ih => exact Or.inr (List.mem_map_of_mem _ hm)
      | setDueDate v hstep ih => exact ih
      | selectStatus v hv hstep ih => exact ih
      | reset hstep ih => exact Or.inl rfl
    exact key.resolve_left hsel
  · intro body newId a htitle hb ha hmemb
    unfold serverCreateTask
    rw [if_neg htitle]
    simp only [hb]
    rw [if_neg ha, if_neg hmemb]

/-- Witness for C1 on the fixture project: selecting its sole member. -/
theorem createTask_assignee_is_member_witness :
    (({ initialNewTask with assignee_id := "u1" } : NewTaskForm).assignee_id ≠ "")
    ∧ "u1" ∈ memberIds demoProject :=
  have hr : TaskFormReachable demoProject { initialNewTask with assignee_id := "u1" } :=
    TaskFormReachable.selectAssignee demoMember (by decide) TaskFormReachable.init
  ⟨by decide,
   (createTask_assignee_is_member demoProject { initialNewTask with assignee_id := "u1" }
      hr (by decide)).1⟩

/-- C5: on a successful delete the dashboard removes exactly the deleted
project from the local list, preserving the order of the remaining projects;
a failed delete leaves the list unchanged; and the spec-modelled backend
delete produces, in one step, a state with no task or comment of the deleted
project and every task and comment of the other projects kept. -/
theorem project_delete_exact_and_cascade (projects : List Project) (p : Project)
    (st : ServerState) (caller : String)
    (hp : p ∈ projects) (hnodup : (projects.map Project.id).Nodup) :
    (∀ q, q ∈ ProjectDashboard.handleDelete projects p.id ↔ q ∈ projects ∧ q ≠ p)
    ∧ List.Sublist (ProjectDashboard.handleDelete projects p.id) projects
    ∧ ProjectCard.handleDelete true projects p.id = ProjectDashboard.handleDelete projects p.id
    ∧ ProjectCard.handleDelete false projects p.id = projects
    ∧ (∀ st', serverDeleteProject st caller p.id = Except.ok st' →
        (∀ t ∈ st'.tasks, t.project_id ≠ p.id)
        ∧ (∀ c ∈ st'.comments, c.project_id ≠ p.id)
        ∧ (∀ q ∈ st'.projects, q.id ≠ p.id)
        ∧ (∀ t ∈ st.tasks, t.project_id ≠ p.id → t ∈ st'.tasks)
        ∧ (∀ c ∈ st.comments, c.project_id ≠ p.id → c ∈ st'.comments)) := by
  refine ⟨?_, List.filter_sublist _, rfl, rfl, ?_⟩
  · intro q
    unfold ProjectDashboard.handleDelete
    simp only [List.mem_filter, bne_iff_ne, ne_eq]
    constructor
    · rintro ⟨hq, hne⟩
      refine ⟨hq, fun hqp => hne ?_⟩
      rw [hqp]
    · rintro ⟨hq, hne⟩
      refine ⟨hq, fun hid => hne ?_⟩
      exact List.inj_on_of_nodup_map hnodup hq hp hid
  · intro st' hok
    unfold serverDeleteProject at hok
    cases hfind : st.projects.find? (fun q => q.id == p.id) with
    | none =>
        rw [hfind] at hok
        exact absurd hok (by simp)
    | some p0 =>
        rw [hfind] at hok
        dsimp only at hok
        by_cases hown : p0.created_by = caller
        · rw [if_pos hown] at hok
          injection hok with hok
          subst hok
          refine ⟨?_, ?_, ?_, ?_, ?_⟩
          · intro t ht
            exact bne_iff_ne.mp (List.mem_filter.mp ht).2
          · intro c hc
            exact bne_iff_ne.mp (List.mem_filter.mp hc).2
          · intro q hq
            exact bne_iff_ne.mp (List.mem_filter.mp hq).2
          · intro t ht hne
            exact List.mem_filter.mpr ⟨ht, bne_iff_ne.mpr hne⟩
          · intro c hc hne
            exact List.mem_filter.mpr ⟨hc, bne_iff_ne.mpr hne⟩
        · rw [if_neg hown] at hok
          exact absurd hok (by simp)

/-- Witness for C5 on a singleton project list and the fixture server state. -/
theorem project_delete_exact_and_cascade_witness :
    demoProject ∉ ProjectDashboard.handleDelete [demoProject] demoProject.id
    ∧ ProjectCard.handleDelete false [demoProject] demoProject.id = [demoProject] :=
  have H := project_delete_exact_and_cascade [demoProject] demoProject demoServerState "u1"
    (List.mem_singleton.mpr rfl) (by decide)
  ⟨fun hmem => ((H.1 demoProject).mp hmem).2 rfl, H.2.2.2.1⟩

end SynergySphere
